import Mathlib

/-!
Verification development for the attendance time-calculation engine of the
attendance-app-gps repository.  The JavaScript source is embedded shallowly:
timestamps are epoch milliseconds as integers, JS Math.floor division is
Int.fdiv, the JS remainder operator is Int.tmod, and JS Date calendar
arithmetic is modelled with the standard civil-calendar day-count algorithms
(proleptic Gregorian, the calendar used by JS Date).  All definitions are
executable.
-/

namespace Attendance

/-- Milliseconds in one calendar day. -/
def msPerDay : Int := 86400000

/-- Milliseconds in one hour. -/
def msPerHour : Int := 3600000

/-- Milliseconds in one minute. -/
def msPerMinute : Int := 60000

/-- Kinds of raw attendance punches stored in the attendance collection
    (the type field of a record in js/monthly.js and js/timecard-history.js). -/
inductive EventType where
  | clock_in
  | clock_out
  | break_start
  | break_end
  | paid_leave
  | absence
deriving DecidableEq

/-- True when y is a leap year in the proleptic Gregorian calendar. -/
def isLeapYear (y : Int) : Bool := (y % 4 == 0 && y % 100 != 0) || y % 400 == 0

/-- Number of days of month m (1..12) of year y. -/
def daysInMonth (y m : Int) : Int :=
  if m = 2 then (if isLeapYear y then 29 else 28)
  else if m = 4 ∨ m = 6 ∨ m = 9 ∨ m = 11 then 30
  else 31

/-- Days since 1970-01-01 of the civil date (y, m, d) with months 1..12.
    The day argument enters linearly, so an out-of-range day rolls over
    naturally, exactly as JS Date normalises day overflow. -/
def daysFromCivil (y m d : Int) : Int :=
  let y2 := if m ≤ 2 then y - 1 else y
  let era := y2.fdiv 400
  let yoe := y2 - era * 400
  let mp := (m + 9) % 12
  let doy := (153 * mp + 2).fdiv 5 + d - 1
  let doe := yoe * 365 + yoe.fdiv 4 - yoe.fdiv 100 + doy
  era * 146097 + doe - 719468

/-- Civil date (y, m, d) of a count of days since 1970-01-01. -/
def civilFromDays (z : Int) : Int × Int × Int :=
  let z2 := z + 719468
  let era := z2.fdiv 146097
  let doe := z2 - era * 146097
  let yoe := (doe - doe.fdiv 1460 + doe.fdiv 36524 - doe.fdiv 146096).fdiv 365
  let doy := doe - (365 * yoe + yoe.fdiv 4 - yoe.fdiv 100)
  let mp := (5 * doy + 2).fdiv 153
  let d := doy - (153 * mp + 2).fdiv 5 + 1
  let m := if mp < 10 then mp + 3 else mp - 9
  (yoe + era * 400 + (if m ≤ 2 then 1 else 0), m, d)

/-- JS Date.getDay of an epoch-millisecond instant: 0 = Sunday .. 6 = Saturday
    (1970-01-01 was a Thursday, day number 4). -/
def getDayOfWeek (t : Int) : Int := (t.fdiv msPerDay + 4) % 7

/-- JS setHours(h, mi, s, ms): keep the calendar day of the instant and replace
    the time of day; out-of-range components roll over, as in JS. -/
def setHoursFull (t h mi s ms : Int) : Int :=
  t.fdiv msPerDay * msPerDay + h * msPerHour + mi * msPerMinute + s * 1000 + ms

/-- Epoch milliseconds of (year, 0-based month index, day, ms of day) with JS
    normalisation of the month index into the year and linear day overflow.
    This is the semantics of the JS Date field setters (no two-digit-year
    adjustment). -/
def civilToMs (y mIdx d ms : Int) : Int :=
  daysFromCivil (y + mIdx.fdiv 12) (mIdx % 12 + 1) d * msPerDay + ms

/-- JS new Date(year, monthIndex, day) at a given time of day: like civilToMs
    but with the two-digit-year rule of the Date constructor (years 0..99 are
    read as 1900..1999). -/
def mkDateMs (y mIdx d ms : Int) : Int :=
  civilToMs (if 0 ≤ y ∧ y ≤ 99 then y + 1900 else y) mIdx d ms

/-- JS getMonth of an instant: the 0-based month index of its calendar day. -/
def getMonth0 (t : Int) : Int := (civilFromDays (t.fdiv msPerDay)).2.1 - 1

/-- JS setMonth(mIdx): keep year, day of month and time of day, replace the
    month by the (normalising) 0-based index mIdx. -/
def setMonthJS (t mIdx : Int) : Int :=
  let c := civilFromDays (t.fdiv msPerDay)
  civilToMs c.1 mIdx c.2.2 (t % msPerDay)

/-- One raw punch record as consumed by the calculation code: an event type
    and an epoch-millisecond timestamp (record.timestamp.toDate()). -/
structure DayRecord where
  type : EventType
  timestamp : Int
deriving DecidableEq

/-- Boolean test record.type === t used by the find and filter calls. -/
def isType (t : EventType) (r : DayRecord) : Bool := decide (r.type = t)

/-- Per-employee settings as resolved in js/monthly.js loadEmployeeData: the
    startTime and endTime strings HH:MM are already split into hour and minute
    numbers, and standardWorkTime is the decimal hour threshold.  The || DEFAULT
    fallbacks of the source are applied by the caller, so the record here is the
    effective configuration. -/
structure EmployeeConfig where
  startHour : Int
  startMinute : Int
  endHour : Int
  endMinute : Int
  standardWorkTime : ℚ
deriving DecidableEq

/-- Inner loop of the break pairing in calculateWorkTime
    (js/timecard-history.js lines 57-65 and js/monthly.js lines 978-983):
    timestamp of the first break_end record in the given suffix, if any. -/
def findBreakEnd : List DayRecord → Option Int
  | [] => none
  | r :: rs => if r.type = EventType.break_end then some r.timestamp else findBreakEnd rs

/-- Outer loop of the break pairing: for every break_start record, pair its
    timestamp with the first break_end occurring later in the list; starts with
    no later break_end produce no pair (js/timecard-history.js lines 54-67). -/
def breakPairs : List DayRecord → List (Int × Int)
  | [] => []
  | r :: rs =>
    if r.type = EventType.break_start then
      match findBreakEnd rs with
      | some e => (r.timestamp, e) :: breakPairs rs
      | none => breakPairs rs
    else breakPairs rs

/-- Total milliseconds of the paired break intervals
    (js/timecard-history.js lines 70-72). -/
def breakMsSum (l : List DayRecord) : Int :=
  ((breakPairs l).map (fun p => p.2 - p.1)).sum

/-- Result object of calculateWorkTime in js/timecard-history.js. -/
structure WorkTime where
  hours : Int
  minutes : Int
  isFinished : Bool
  isOnBreak : Bool
deriving DecidableEq

/-- Condition records.length greater than 0 and the last record being a
    break_start (js/timecard-history.js line 86). -/
def lastIsBreakStart (records : List DayRecord) : Bool :=
  match records.getLast? with
  | some r => decide (r.type = EventType.break_start)
  | none => false

/-- calculateWorkTime of js/timecard-history.js lines 32-88 (duplicated in the
    display module and, with string output, in js/monthly.js lines 953-994).
    The now argument stands for the new Date() used when no clock_out exists. -/
def calculateWorkTime (records : List DayRecord) (now : Int) : Option WorkTime :=
  match records.find? (isType EventType.clock_in) with
  | none => none
  | some clockIn =>
    let endTime :=
      match records.find? (isType EventType.clock_out) with
      | some c => c.timestamp
      | none => now
    let totalMs := endTime - clockIn.timestamp
    let workMs := totalMs - breakMsSum records
    let totalMinutes := workMs.fdiv msPerMinute
    some {
      hours := totalMinutes.fdiv 60,
      minutes := totalMinutes.tmod 60,
      isFinished := (records.find? (isType EventType.clock_out)).isSome,
      isOnBreak := lastIsBreakStart records }

/-- Result object of calculateDayWorkData in js/monthly.js. -/
structure DayWorkData where
  workMinutes : Int
  workHours : ℚ
  overtimeMinutes : Int
  overtimeHours : ℚ
  lateMinutes : Int
  isLate : Bool
  earlyLeaveMinutes : Int
  isEarlyLeave : Bool
  isHolidayWork : Bool
deriving DecidableEq

/-- isHoliday of js/monthly.js lines 89-93: Saturday (6) or Sunday (0). -/
def isHoliday (t : Int) : Bool :=
  decide (getDayOfWeek t = 0 ∨ getDayOfWeek t = 6)

/-- calculateDayWorkData of js/monthly.js lines 102-159.  Note that this
    function subtracts no break time: workMinutes is the gross span from
    clock_in to clock_out.  The date argument is the workDate parameter
    (None models a null date, in which case the clock_in instant is used). -/
def calculateDayWorkData (dayRecords : List DayRecord) (cfg : EmployeeConfig)
    (date : Option Int) : Option DayWorkData :=
  match dayRecords.find? (isType EventType.clock_in) with
  | none => none
  | some clockIn =>
    match dayRecords.find? (isType EventType.clock_out) with
    | none => none
    | some clockOut =>
      let totalMs := clockOut.timestamp - clockIn.timestamp
      let workMinutes := totalMs.fdiv msPerMinute
      let workHours : ℚ := (workMinutes : ℚ) / 60
      let overtimeHours : ℚ := max 0 (workHours - cfg.standardWorkTime)
      let overtimeMinutes : Int := Rat.floor (overtimeHours * 60)
      let standardStart := setHoursFull clockIn.timestamp cfg.startHour cfg.startMinute 0 0
      let lateMinutes : Int :=
        if standardStart < clockIn.timestamp
        then (clockIn.timestamp - standardStart).fdiv msPerMinute else 0
      let standardEnd := setHoursFull clockOut.timestamp cfg.endHour cfg.endMinute 0 0
      let earlyLeaveMinutes : Int :=
        if clockOut.timestamp < standardEnd
        then (standardEnd - clockOut.timestamp).fdiv msPerMinute else 0
      let workDate := date.getD clockIn.timestamp
      some {
        workMinutes := workMinutes,
        workHours := workHours,
        overtimeMinutes := overtimeMinutes,
        overtimeHours := overtimeHours,
        lateMinutes := lateMinutes,
        isLate := decide (0 < lateMinutes),
        earlyLeaveMinutes := earlyLeaveMinutes,
        isEarlyLeave := decide (0 < earlyLeaveMinutes),
        isHolidayWork := isHoliday workDate }

/-- Per-employee accumulators of the aggregation loop in
    js/monthly.js calculateMonthlySummary lines 288-298. -/
structure MonthlySummary where
  workingDays : Nat
  totalWorkMinutes : Int
  totalOvertimeMinutes : Int
  latenessCount : Nat
  totalLatenessMinutes : Int
  earlyLeaveCount : Nat
  totalEarlyLeaveMinutes : Int
  holidayWorkDays : Nat
  holidayWorkMinutes : Int
  paidLeaveDays : Nat
  absenceDays : Nat
deriving DecidableEq

/-- All accumulators start at zero. -/
def initSummary : MonthlySummary := ⟨0, 0, 0, 0, 0, 0, 0, 0, 0, 0, 0⟩

/-- Stable insertion of a record into a timestamp-sorted list, placing the new
    record before the first strictly later or equally late element it precedes
    in input order. -/
def insertByTs (x : DayRecord) : List DayRecord → List DayRecord
  | [] => [x]
  | y :: ys => if x.timestamp ≤ y.timestamp then x :: y :: ys else y :: insertByTs x ys

/-- The in-place sort applied to each day before calculateDayWorkData
    (js/monthly.js line 322, ascending by timestamp).  JS Array.sort with a
    numeric comparator is specified to be stable, and a stable sort by a given
    comparator has a unique output, so this stable insertion sort computes
    exactly the sorted array of the source. -/
def sortDayRecords : List DayRecord → List DayRecord
  | [] => []
  | x :: xs => insertByTs x (sortDayRecords xs)

/-- Body of the per-day loop of calculateMonthlySummary
    (js/monthly.js lines 301-353): paid-leave check, absence check, then the
    work-data computation on the sorted records with accumulation of the
    summary counters.  The records argument is one entry of dayRecordsMap and
    workDate is the midnight instant parsed from its date key. -/
def processDay (cfg : EmployeeConfig) (acc : MonthlySummary)
    (records : List DayRecord) (workDate : Int) : MonthlySummary :=
  if records.any (isType EventType.paid_leave) then
    { acc with paidLeaveDays := acc.paidLeaveDays + 1 }
  else if records.any (isType EventType.absence) then
    { acc with absenceDays := acc.absenceDays + 1 }
  else
    match calculateDayWorkData (sortDayRecords records) cfg (some workDate) with
    | none => acc
    | some d =>
      { acc with
        workingDays := acc.workingDays + 1,
        totalWorkMinutes := acc.totalWorkMinutes + d.workMinutes,
        totalOvertimeMinutes := acc.totalOvertimeMinutes + d.overtimeMinutes,
        holidayWorkDays := acc.holidayWorkDays + (if d.isHolidayWork then 1 else 0),
        holidayWorkMinutes := acc.holidayWorkMinutes + (if d.isHolidayWork then d.workMinutes else 0),
        latenessCount := acc.latenessCount + (if d.isLate then 1 else 0),
        totalLatenessMinutes := acc.totalLatenessMinutes + (if d.isLate then d.lateMinutes else 0),
        earlyLeaveCount := acc.earlyLeaveCount + (if d.isEarlyLeave then 1 else 0),
        totalEarlyLeaveMinutes := acc.totalEarlyLeaveMinutes + (if d.isEarlyLeave then d.earlyLeaveMinutes else 0) }

/-- The per-employee aggregation: fold the per-day loop body over the grouped
    days of the period (js/monthly.js lines 288-353), each day given by its
    record list and its workDate. -/
def calculateMonthlySummaryCore (cfg : EmployeeConfig)
    (days : List (List DayRecord × Int)) : MonthlySummary :=
  days.foldl (fun acc day => processDay cfg acc day.1 day.2) initSummary

/-- calculatePeriod of js/monthly.js lines 42-51: periodStart is
    new Date(year, month - 1, closingDay + 1) shifted one month back by
    setMonth and set to 00:00:00.000, periodEnd is
    new Date(year, month - 1, closingDay) set to 23:59:59.999. -/
def calculatePeriod (year month closingDay : Int) : Int × Int :=
  let p0 := mkDateMs year (month - 1) (closingDay + 1) 0
  let p1 := setMonthJS p0 (getMonth0 p0 - 1)
  let periodStart := setHoursFull p1 0 0 0 0
  let e0 := mkDateMs year (month - 1) closingDay 0
  let periodEnd := setHoursFull e0 23 59 59 999
  (periodStart, periodEnd)

/-- Modelled from the spec, for comparison with the source pairing: the
    stack-discipline policy of section 4.2 of the specification, in which each
    break_end closes the most recently opened still-unclosed break_start and
    closes at most one of them.  The auxiliary argument is the stack of open
    break_start timestamps. -/
def stackPairsAux : List DayRecord → List Int → List (Int × Int)
  | [], _ => []
  | r :: rs, stack =>
    match r.type with
    | EventType.break_start => stackPairsAux rs (r.timestamp :: stack)
    | EventType.break_end =>
      match stack with
      | [] => stackPairsAux rs []
      | s :: rest => (s, r.timestamp) :: stackPairsAux rs rest
    | _ => stackPairsAux rs stack

/-- Modelled from the spec: stack-discipline pairing of a whole day. -/
def stackPairs (l : List DayRecord) : List (Int × Int) := stackPairsAux l []

/-- First-match-forward pairing stated declaratively: every suffix of the list
    that starts with a break_start contributes the pair of that start with the
    first break_end of the remaining suffix, in list order. -/
def firstMatchPairs (l : List DayRecord) : List (Int × Int) :=
  l.tails.filterMap fun s =>
    match s with
    | r :: rs =>
      if r.type = EventType.break_start then
        (rs.find? (isType EventType.break_end)).map fun e => (r.timestamp, e.timestamp)
      else none
    | [] => none

/-- Sanity check of the calendar model: the epoch day itself. -/
theorem sanity_daysFromCivil_epoch : daysFromCivil 1970 1 1 = 0 := by decide

/-- Sanity check of the calendar model: a leap-year date, and the roundtrip. -/
theorem sanity_daysFromCivil_roundtrip :
    daysFromCivil 2024 2 29 = 19782 ∧ civilFromDays 19782 = (2024, 2, 29) ∧
    daysFromCivil 2025 1 6 = 20094 ∧ getDayOfWeek (20094 * msPerDay) = 1 := by decide

/-- Midnight of Monday 2025-01-06, the concrete employee-day used in the
    worked examples. -/
def exDay0 : Int := daysFromCivil 2025 1 6 * msPerDay

/-- ClockIn 09:00 of the example day. -/
def exClockIn : DayRecord := ⟨EventType.clock_in, exDay0 + 9 * msPerHour⟩

/-- BreakStart 12:00 of the example day. -/
def exBreakStartR : DayRecord := ⟨EventType.break_start, exDay0 + 12 * msPerHour⟩

/-- BreakEnd 13:00 of the example day. -/
def exBreakEndR : DayRecord := ⟨EventType.break_end, exDay0 + 13 * msPerHour⟩

/-- ClockOut 18:00 of the example day. -/
def exClockOut : DayRecord := ⟨EventType.clock_out, exDay0 + 18 * msPerHour⟩

/-- The employee-day of the break-exclusion example: ClockIn 09:00,
    BreakStart 12:00, BreakEnd 13:00, ClockOut 18:00. -/
def exampleDay : List DayRecord := [exClockIn, exBreakStartR, exBreakEndR, exClockOut]

/-- The DEFAULT_SETTINGS schedule of js/monthly.js lines 28-33:
    09:00 to 18:00 with standardWorkTime 8 hours. -/
def defaultConfig : EmployeeConfig := ⟨9, 0, 18, 0, 8⟩

/-- Shape of calculateDayWorkData when both a clock_in and a clock_out record
    are found: every output field spelled out. -/
theorem calculateDayWorkData_eq (records : List DayRecord) (cfg : EmployeeConfig)
    (date : Option Int) (ci co : DayRecord)
    (h1 : records.find? (isType EventType.clock_in) = some ci)
    (h2 : records.find? (isType EventType.clock_out) = some co) :
    calculateDayWorkData records cfg date = some {
      workMinutes := ((co.timestamp - ci.timestamp).fdiv msPerMinute),
      workHours := (((co.timestamp - ci.timestamp).fdiv msPerMinute : ℤ) : ℚ) / 60,
      overtimeMinutes := Rat.floor ((max 0 ((((co.timestamp - ci.timestamp).fdiv msPerMinute : ℤ) : ℚ) / 60 - cfg.standardWorkTime)) * 60),
      overtimeHours := max 0 ((((co.timestamp - ci.timestamp).fdiv msPerMinute : ℤ) : ℚ) / 60 - cfg.standardWorkTime),
      lateMinutes := (if setHoursFull ci.timestamp cfg.startHour cfg.startMinute 0 0 < ci.timestamp
        then (ci.timestamp - setHoursFull ci.timestamp cfg.startHour cfg.startMinute 0 0).fdiv msPerMinute else 0),
      isLate := decide (0 < (if setHoursFull ci.timestamp cfg.startHour cfg.startMinute 0 0 < ci.timestamp
        then (ci.timestamp - setHoursFull ci.timestamp cfg.startHour cfg.startMinute 0 0).fdiv msPerMinute else 0)),
      earlyLeaveMinutes := (if co.timestamp < setHoursFull co.timestamp cfg.endHour cfg.endMinute 0 0
        then (setHoursFull co.timestamp cfg.endHour cfg.endMinute 0 0 - co.timestamp).fdiv msPerMinute else 0),
      isEarlyLeave := decide (0 < (if co.timestamp < setHoursFull co.timestamp cfg.endHour cfg.endMinute 0 0
        then (setHoursFull co.timestamp cfg.endHour cfg.endMinute 0 0 - co.timestamp).fdiv msPerMinute else 0)),
      isHolidayWork := isHoliday (date.getD ci.timestamp) } := by
  unfold calculateDayWorkData
  rw [h1, h2]

/-- A positive-part floor division: the guarded difference-in-minutes
    computation of the lateness and early-leave figures equals a max with 0. -/
theorem guarded_fdiv_eq_max (a b : Int) :
    (if a < b then (b - a).fdiv msPerMinute else 0) = max 0 ((b - a).fdiv msPerMinute) := by
  have hm : (msPerMinute : Int) = 60000 := rfl
  rw [hm, Int.fdiv_eq_ediv _ (by norm_num)]
  rcases le_or_lt b a with h | h
  · rw [if_neg (by omega), eq_comm, max_eq_left (by omega)]
  · rw [if_pos h, eq_comm, max_eq_right (by omega)]

/-- The overtime computation of calculateDayWorkData in closed form: when the
    standard threshold in minutes is the integer s, the floored positive part
    in hours times sixty equals the positive part of workMinutes minus s. -/
theorem overtimeMinutes_eq (wm s : Int) (std : ℚ) (hs : std * 60 = (s : ℚ)) :
    Rat.floor (max 0 (((wm : ℤ) : ℚ) / 60 - std) * 60) = max 0 (wm - s) := by
  have key : (max 0 (((wm : ℤ) : ℚ) / 60 - std)) * 60 = ((max 0 (wm - s) : ℤ) : ℚ) := by
    rw [max_mul_of_nonneg _ _ (by norm_num : (0:ℚ) ≤ 60), zero_mul, sub_mul,
      div_mul_cancel₀ _ (by norm_num : (60:ℚ) ≠ 0), hs]
    push_cast
    rfl
  have hfl : ∀ q : ℚ, Rat.floor q = ⌊q⌋ := fun q => rfl
  rw [key, hfl, Int.floor_intCast]

/-- Evaluation of the four integer figures of calculateDayWorkData on the
    example day under the default schedule. -/
theorem exampleDay_figures :
    (calculateDayWorkData exampleDay defaultConfig none).map
        (fun d => (d.workMinutes, d.overtimeMinutes, d.lateMinutes, d.earlyLeaveMinutes))
      = some (540, 60, 0, 0) := by
  rw [calculateDayWorkData_eq exampleDay defaultConfig none exClockIn exClockOut
    (by decide) (by decide)]
  simp only [Option.map_some']
  have hwm : (exClockOut.timestamp - exClockIn.timestamp).fdiv msPerMinute = 540 := by decide
  rw [hwm, overtimeMinutes_eq 540 480 _ (by norm_num [defaultConfig])]
  decide

/-- C1, counterexample.  On the spec example day (ClockIn 09:00,
    BreakStart 12:00, BreakEnd 13:00, ClockOut 18:00, schedule 09:00-18:00,
    standardWorkHours 8) the per-day computation of the monthly aggregation
    returns workMinutes 540 and overtimeMinutes 60, not the claimed 480 and 0:
    calculateDayWorkData subtracts no break time. -/
theorem c1_counterexample :
    (calculateDayWorkData exampleDay defaultConfig none).map
        (fun d => (d.workMinutes, d.overtimeMinutes, d.lateMinutes, d.earlyLeaveMinutes))
      = some (540, 60, 0, 0) ∧
    (calculateDayWorkData exampleDay defaultConfig none).map
        (fun d => (d.workMinutes, d.overtimeMinutes, d.lateMinutes, d.earlyLeaveMinutes))
      ≠ some (480, 0, 0, 0) := by
  refine ⟨exampleDay_figures, ?_⟩
  rw [exampleDay_figures]
  decide

/-- C1, amended.  The history-view calculateWorkTime does compute gross
    minutes minus the summed paired break minutes, with no clamping at zero,
    and on the example day reports 8 hours 0 minutes; but the monthly
    calculateDayWorkData performs no break deduction, so the same day yields
    workMinutes 540, overtimeMinutes 60, lateMinutes 0, earlyLeaveMinutes 0. -/
theorem c1_amended :
    (∀ (records : List DayRecord) (now : Int) (ci co : DayRecord),
      records.find? (isType EventType.clock_in) = some ci →
      records.find? (isType EventType.clock_out) = some co →
      calculateWorkTime records now = some {
        hours := ((co.timestamp - ci.timestamp - breakMsSum records).fdiv msPerMinute).fdiv 60,
        minutes := ((co.timestamp - ci.timestamp - breakMsSum records).fdiv msPerMinute).tmod 60,
        isFinished := true,
        isOnBreak := lastIsBreakStart records }) ∧
    calculateWorkTime exampleDay 0 = some ⟨8, 0, true, false⟩ ∧
    (calculateDayWorkData exampleDay defaultConfig none).map
        (fun d => (d.workMinutes, d.overtimeMinutes, d.lateMinutes, d.earlyLeaveMinutes))
      = some (540, 60, 0, 0) := by
  refine ⟨?_, by decide, exampleDay_figures⟩
  intro records now ci co h1 h2
  unfold calculateWorkTime
  rw [h1, h2]
  simp

/-- C1, witness for the amended theorem at the example day. -/
theorem c1_witness :
    calculateWorkTime exampleDay 0 = some {
      hours := ((exClockOut.timestamp - exClockIn.timestamp - breakMsSum exampleDay).fdiv msPerMinute).fdiv 60,
      minutes := ((exClockOut.timestamp - exClockIn.timestamp - breakMsSum exampleDay).fdiv msPerMinute).tmod 60,
      isFinished := true,
      isOnBreak := lastIsBreakStart exampleDay } :=
  c1_amended.1 exampleDay 0 exClockIn exClockOut (by decide) (by decide)

/-- C2.  With both punches found and an integral minute threshold s equal to
    standardWorkHours times 60, the four figures are computed independently as
    claimed: overtime is the positive part of workMinutes minus s, lateness is
    the positive part of the floored minutes from scheduled start to clock-in
    with isLate exactly when positive, early leave symmetrically against the
    scheduled end, and the holiday flag holds exactly on Saturday or Sunday of
    the work date, independent of hours worked. -/
theorem c2_thresholds (records : List DayRecord) (cfg : EmployeeConfig)
    (date : Option Int) (ci co : DayRecord) (s : Int)
    (h1 : records.find? (isType EventType.clock_in) = some ci)
    (h2 : records.find? (isType EventType.clock_out) = some co)
    (hs : cfg.standardWorkTime * 60 = (s : ℚ)) :
    ∃ d, calculateDayWorkData records cfg date = some d
      ∧ d.workMinutes = (co.timestamp - ci.timestamp).fdiv msPerMinute
      ∧ d.overtimeMinutes = max 0 (d.workMinutes - s)
      ∧ d.lateMinutes = max 0 ((ci.timestamp - setHoursFull ci.timestamp cfg.startHour cfg.startMinute 0 0).fdiv msPerMinute)
      ∧ (d.isLate = true ↔ 0 < d.lateMinutes)
      ∧ d.earlyLeaveMinutes = max 0 ((setHoursFull co.timestamp cfg.endHour cfg.endMinute 0 0 - co.timestamp).fdiv msPerMinute)
      ∧ (d.isEarlyLeave = true ↔ 0 < d.earlyLeaveMinutes)
      ∧ (d.isHolidayWork = true ↔
          (getDayOfWeek (date.getD ci.timestamp) = 0 ∨ getDayOfWeek (date.getD ci.timestamp) = 6)) := by
  refine ⟨_, calculateDayWorkData_eq records cfg date ci co h1 h2,
    rfl, ?_, guarded_fdiv_eq_max _ _, by simp, guarded_fdiv_eq_max _ _, by simp, by simp [isHoliday]⟩
  show Rat.floor ((max 0 ((((co.timestamp - ci.timestamp).fdiv msPerMinute : ℤ) : ℚ) / 60 - cfg.standardWorkTime)) * 60)
      = max 0 ((co.timestamp - ci.timestamp).fdiv msPerMinute - s)
  exact overtimeMinutes_eq _ s _ hs

/-- C2, witness at the example day with threshold 480 minutes. -/
theorem c2_witness :
    ∃ d, calculateDayWorkData exampleDay defaultConfig none = some d
      ∧ d.workMinutes = (exClockOut.timestamp - exClockIn.timestamp).fdiv msPerMinute
      ∧ d.overtimeMinutes = max 0 (d.workMinutes - 480)
      ∧ d.lateMinutes = max 0 ((exClockIn.timestamp - setHoursFull exClockIn.timestamp defaultConfig.startHour defaultConfig.startMinute 0 0).fdiv msPerMinute)
      ∧ (d.isLate = true ↔ 0 < d.lateMinutes)
      ∧ d.earlyLeaveMinutes = max 0 ((setHoursFull exClockOut.timestamp defaultConfig.endHour defaultConfig.endMinute 0 0 - exClockOut.timestamp).fdiv msPerMinute)
      ∧ (d.isEarlyLeave = true ↔ 0 < d.earlyLeaveMinutes)
      ∧ (d.isHolidayWork = true ↔
          (getDayOfWeek ((none : Option Int).getD exClockIn.timestamp) = 0
            ∨ getDayOfWeek ((none : Option Int).getD exClockIn.timestamp) = 6)) :=
  c2_thresholds exampleDay defaultConfig none exClockIn exClockOut 480
    (by decide) (by decide) (by norm_num [defaultConfig])

/-- First break of the interleaved-break example, 10:00. -/
def exBS1 : DayRecord := ⟨EventType.break_start, exDay0 + 10 * msPerHour⟩

/-- Second break of the interleaved-break example, 10:30. -/
def exBS2 : DayRecord := ⟨EventType.break_start, exDay0 + 10 * msPerHour + 30 * msPerMinute⟩

/-- The single break end of the interleaved-break example, 11:00. -/
def exBE : DayRecord := ⟨EventType.break_end, exDay0 + 11 * msPerHour⟩

/-- The interleaved sequence BreakStart, BreakStart, BreakEnd. -/
def interleavedDay : List DayRecord := [exBS1, exBS2, exBE]

/-- C3, counterexample.  On the interleaving BreakStart 10:00,
    BreakStart 10:30, BreakEnd 11:00 the source pairing closes BOTH starts
    with the single end, so the one BreakEnd closes two BreakStarts and the
    earliest (not the most recent) start is closed first; the stack-discipline
    output claimed by the spec would close only the most recent start. -/
theorem c3_counterexample :
    breakPairs interleavedDay
        = [(exBS1.timestamp, exBE.timestamp), (exBS2.timestamp, exBE.timestamp)] ∧
    stackPairs interleavedDay = [(exBS2.timestamp, exBE.timestamp)] ∧
    breakPairs interleavedDay ≠ stackPairs interleavedDay := by
  decide

/-- The inner scan for the first following break_end agrees with find?. -/
theorem findBreakEnd_eq (rs : List DayRecord) :
    findBreakEnd rs = (rs.find? (isType EventType.break_end)).map (fun r => r.timestamp) := by
  induction rs with
  | nil => rfl
  | cons r rs ih =>
    by_cases h : r.type = EventType.break_end
    · rw [findBreakEnd, if_pos h, List.find?_cons_of_pos _ (by simp [isType, h])]
      rfl
    · rw [findBreakEnd, if_neg h, List.find?_cons_of_neg _ (by simp [isType, h]), ih]

/-- C3, amended.  The source pairing is first-match-forward, not stack
    discipline: every break_start in the list is paired with the first
    break_end occurring after it (a break_start with no later break_end is
    dropped), so a single break_end can close several break_starts. -/
theorem c3_amended (l : List DayRecord) : breakPairs l = firstMatchPairs l := by
  induction l with
  | nil => rfl
  | cons r rs ih =>
    rw [breakPairs, firstMatchPairs, List.tails_cons, List.filterMap_cons]
    by_cases h : r.type = EventType.break_start
    · rw [if_pos h, findBreakEnd_eq]
      cases hfe : rs.find? (isType EventType.break_end) with
      | none => simp only [hfe, Option.map_none', ih, firstMatchPairs, if_pos h]
      | some e => simp only [hfe, Option.map_some', ih, firstMatchPairs, if_pos h]
    · simp only [if_neg h, ih, firstMatchPairs]

/-- Membership across the stable insertion. -/
theorem mem_insertByTs (x a : DayRecord) (l : List DayRecord) :
    a ∈ insertByTs x l ↔ a = x ∨ a ∈ l := by
  induction l with
  | nil => simp [insertByTs]
  | cons y ys ih =>
    unfold insertByTs
    by_cases h : x.timestamp ≤ y.timestamp
    · rw [if_pos h]
      simp
    · rw [if_neg h]
      simp only [List.mem_cons, ih]
      tauto

/-- The sort of a day is a permutation with respect to membership. -/
theorem mem_sortDayRecords (a : DayRecord) (l : List DayRecord) :
    a ∈ sortDayRecords l ↔ a ∈ l := by
  induction l with
  | nil => simp [sortDayRecords]
  | cons x xs ih =>
    unfold sortDayRecords
    rw [mem_insertByTs, ih]
    simp

/-- C4.  A day whose records contain no clock_in yields no day data at all,
    and a day whose records contain no clock_out leaves both the workingDays
    count and the totalWorkMinutes accumulator of the summary unchanged. -/
theorem c4_exclusion :
    (∀ (records : List DayRecord) (cfg : EmployeeConfig) (date : Option Int),
      records.find? (isType EventType.clock_in) = none →
      calculateDayWorkData records cfg date = none) ∧
    (∀ (cfg : EmployeeConfig) (acc : MonthlySummary) (records : List DayRecord) (workDate : Int),
      (∀ r ∈ records, r.type ≠ EventType.clock_out) →
      (processDay cfg acc records workDate).workingDays = acc.workingDays ∧
      (processDay cfg acc records workDate).totalWorkMinutes = acc.totalWorkMinutes) := by
  constructor
  · intro records cfg date h
    unfold calculateDayWorkData
    rw [h]
  · intro cfg acc records workDate hno
    have hfind : (sortDayRecords records).find? (isType EventType.clock_out) = none := by
      rw [List.find?_eq_none]
      intro x hx
      have hmem : x ∈ records := (mem_sortDayRecords x records).mp hx
      simp [isType, hno x hmem]
    have hdata : calculateDayWorkData (sortDayRecords records) cfg (some workDate) = none := by
      unfold calculateDayWorkData
      cases hci : (sortDayRecords records).find? (isType EventType.clock_in) with
      | none => rfl
      | some ci => rw [hfind]
    unfold processDay
    by_cases hp : records.any (isType EventType.paid_leave)
    · rw [if_pos hp]
      exact ⟨rfl, rfl⟩
    · rw [if_neg hp]
      by_cases ha : records.any (isType EventType.absence)
      · rw [if_pos ha]
        exact ⟨rfl, rfl⟩
      · rw [if_neg ha, hdata]
        exact ⟨rfl, rfl⟩

/-- C4, witness: a day holding only a clock_in record is not counted. -/
theorem c4_witness :
    (processDay defaultConfig initSummary [exClockIn] exDay0).workingDays
        = initSummary.workingDays ∧
    (processDay defaultConfig initSummary [exClockIn] exDay0).totalWorkMinutes
        = initSummary.totalWorkMinutes :=
  c4_exclusion.2 defaultConfig initSummary [exClockIn] exDay0 (by decide)

/-- C5.  A day containing a paid_leave record only increments paidLeaveDays,
    and a day containing an absence record (and no paid_leave record) only
    increments absenceDays; in both cases every other accumulator, including
    workingDays and totalWorkMinutes, is untouched, regardless of any clock
    events also present in the day. -/
theorem c5_short_circuit :
    (∀ (cfg : EmployeeConfig) (acc : MonthlySummary) (records : List DayRecord) (workDate : Int),
      records.any (isType EventType.paid_leave) = true →
      processDay cfg acc records workDate = { acc with paidLeaveDays := acc.paidLeaveDays + 1 }) ∧
    (∀ (cfg : EmployeeConfig) (acc : MonthlySummary) (records : List DayRecord) (workDate : Int),
      records.any (isType EventType.paid_leave) = false →
      records.any (isType EventType.absence) = true →
      processDay cfg acc records workDate = { acc with absenceDays := acc.absenceDays + 1 }) := by
  constructor
  · intro cfg acc records workDate hp
    unfold processDay
    rw [if_pos hp]
  · intro cfg acc records workDate hp ha
    unfold processDay
    rw [if_neg (by simp [hp]), if_pos ha]

/-- C5, witness: a day with a clock_in, a clock_out and a paid_leave record
    counts one paid-leave day and nothing else. -/
theorem c5_witness :
    processDay defaultConfig initSummary
        [exClockIn, ⟨EventType.paid_leave, exDay0⟩, exClockOut] exDay0
      = { initSummary with paidLeaveDays := initSummary.paidLeaveDays + 1 } :=
  c5_short_circuit.1 defaultConfig initSummary
    [exClockIn, ⟨EventType.paid_leave, exDay0⟩, exClockOut] exDay0 (by decide)

/-- C10.  When a day contains both a paid_leave and an absence record, the
    paid-leave branch runs first: the day increments paidLeaveDays only and
    absenceDays is unchanged, so no day is counted twice. -/
theorem c10_precedence (cfg : EmployeeConfig) (acc : MonthlySummary)
    (records : List DayRecord) (workDate : Int)
    (hp : records.any (isType EventType.paid_leave) = true)
    (_ha : records.any (isType EventType.absence) = true) :
    processDay cfg acc records workDate = { acc with paidLeaveDays := acc.paidLeaveDays + 1 } ∧
    (processDay cfg acc records workDate).absenceDays = acc.absenceDays := by
  unfold processDay
  rw [if_pos hp]
  exact ⟨rfl, rfl⟩

/-- C10, witness: a day holding a paid_leave and an absence record. -/
theorem c10_witness :
    processDay defaultConfig initSummary
        [⟨EventType.paid_leave, exDay0⟩, ⟨EventType.absence, exDay0⟩] exDay0
      = { initSummary with paidLeaveDays := initSummary.paidLeaveDays + 1 } ∧
    (processDay defaultConfig initSummary
        [⟨EventType.paid_leave, exDay0⟩, ⟨EventType.absence, exDay0⟩] exDay0).absenceDays
      = initSummary.absenceDays :=
  c10_precedence defaultConfig initSummary
    [⟨EventType.paid_leave, exDay0⟩, ⟨EventType.absence, exDay0⟩] exDay0
    (by decide) (by decide)

/-- C7, counterexample.  On the day ClockIn 09:00, BreakStart 12:00,
    ClockOut 18:00 the BreakStart has no following BreakEnd; the computation
    subtracts nothing (9 hours 0 minutes gross) and returns normally, but the
    isOnBreak flag is false because the last record of the day is the
    clock_out, so the open break is NOT surfaced as claimed. -/
theorem c7_counterexample :
    calculateWorkTime [exClockIn, exBreakStartR, exClockOut] 0 = some ⟨9, 0, true, false⟩ ∧
    breakPairs [exClockIn, exBreakStartR, exClockOut] = [] ∧
    (∃ r ∈ [exClockIn, exBreakStartR, exClockOut], r.type = EventType.break_start) := by
  decide

/-- C7, amended.  An unterminated break subtracts zero minutes (a day with
    break starts but no break_end at all contributes no pair, hence no
    deduction) and the computation is total, but the open-break flag of the
    result is set exactly when the LAST record of the day is a break_start;
    an unterminated break followed by later events is not flagged. -/
theorem c7_amended :
    (∀ l : List DayRecord,
      (∀ r ∈ l, r.type ≠ EventType.break_end) → breakPairs l = []) ∧
    (∀ (records : List DayRecord) (now : Int) (w : WorkTime),
      calculateWorkTime records now = some w →
      (w.isOnBreak = true ↔
        ∃ r, records.getLast? = some r ∧ r.type = EventType.break_start)) := by
  constructor
  · intro l
    induction l with
    | nil => intro h; rfl
    | cons r rs ih =>
      intro h
      have hrs : ∀ x ∈ rs, x.type ≠ EventType.break_end :=
        fun x hx => h x (List.mem_cons_of_mem _ hx)
      have hfe : findBreakEnd rs = none := by
        rw [findBreakEnd_eq, List.find?_eq_none.mpr (fun x hx => by simp [isType, hrs x hx])]
        rfl
      unfold breakPairs
      by_cases hbs : r.type = EventType.break_start
      · rw [if_pos hbs, hfe]
        exact ih hrs
      · rw [if_neg hbs]
        exact ih hrs
  · intro records now w h
    unfold calculateWorkTime at h
    cases hci : records.find? (isType EventType.clock_in) with
    | none => rw [hci] at h; exact absurd h (by simp)
    | some ci =>
      rw [hci] at h
      simp only [Option.some.injEq] at h
      rw [← h]
      show lastIsBreakStart records = true ↔ _
      unfold lastIsBreakStart
      cases hl : records.getLast? with
      | none => simp
      | some r => simp

/-- C7, witness: the amended theorem applied to the counterexample day. -/
theorem c7_witness : breakPairs [exClockIn, exBreakStartR, exClockOut] = [] :=
  c7_amended.1 [exClockIn, exBreakStartR, exClockOut] (by decide)

/-- Inserting into a timestamp-sorted list keeps it sorted. -/
theorem pairwise_insertByTs (x : DayRecord) (l : List DayRecord)
    (h : l.Pairwise (fun a b => a.timestamp ≤ b.timestamp)) :
    (insertByTs x l).Pairwise (fun a b => a.timestamp ≤ b.timestamp) := by
  induction l with
  | nil => simp [insertByTs]
  | cons y ys ih =>
    rw [List.pairwise_cons] at h
    unfold insertByTs
    by_cases hxy : x.timestamp ≤ y.timestamp
    · rw [if_pos hxy, List.pairwise_cons]
      refine ⟨?_, List.pairwise_cons.mpr h⟩
      intro b hb
      rcases List.mem_cons.mp hb with hb | hb
      · rw [hb]; exact hxy
      · exact le_trans hxy (h.1 b hb)
    · rw [if_neg hxy, List.pairwise_cons]
      refine ⟨?_, ih h.2⟩
      intro b hb
      rcases (mem_insertByTs x b ys).mp hb with hb | hb
      · rw [hb]; omega
      · exact h.1 b hb

/-- The day sort always produces a timestamp-sorted list. -/
theorem pairwise_sortDayRecords (l : List DayRecord) :
    (sortDayRecords l).Pairwise (fun a b => a.timestamp ≤ b.timestamp) := by
  induction l with
  | nil => simp [sortDayRecords]
  | cons x xs ih => exact pairwise_insertByTs x _ ih

/-- Sorting a list that is already timestamp-sorted changes nothing. -/
theorem sortDayRecords_of_pairwise (l : List DayRecord)
    (h : l.Pairwise (fun a b => a.timestamp ≤ b.timestamp)) :
    sortDayRecords l = l := by
  induction l with
  | nil => rfl
  | cons x xs ih =>
    rw [List.pairwise_cons] at h
    unfold sortDayRecords
    rw [ih h.2]
    cases xs with
    | nil => rfl
    | cons y ys =>
      unfold insertByTs
      rw [if_pos (h.1 y (List.mem_cons_self y ys))]

/-- The day sort is idempotent. -/
theorem sortDayRecords_idem (l : List DayRecord) :
    sortDayRecords (sortDayRecords l) = sortDayRecords l :=
  sortDayRecords_of_pairwise _ (pairwise_sortDayRecords l)

/-- The any-scan is invariant under the day sort. -/
theorem any_sortDayRecords (l : List DayRecord) (p : DayRecord → Bool) :
    (sortDayRecords l).any p = l.any p := by
  cases hb : l.any p with
  | false =>
    rw [List.any_eq_false] at hb ⊢
    intro x hx
    exact hb x ((mem_sortDayRecords x l).mp hx)
  | true =>
    rw [List.any_eq_true] at hb ⊢
    obtain ⟨x, hx, hpx⟩ := hb
    exact ⟨x, (mem_sortDayRecords x l).mpr hx, hpx⟩

/-- C8, counterexample.  Handing the per-day computation the out-of-order
    records ClockOut 18:00 before ClockIn 09:00 does not reject the batch:
    the records are silently sorted and the day is processed exactly like the
    well-ordered day, counting one working day of 540 minutes; no unordered
    input error exists in the code. -/
theorem c8_counterexample :
    processDay defaultConfig initSummary [exClockOut, exClockIn] exDay0
        = processDay defaultConfig initSummary [exClockIn, exClockOut] exDay0 ∧
    (processDay defaultConfig initSummary [exClockOut, exClockIn] exDay0).workingDays = 1 ∧
    (processDay defaultConfig initSummary [exClockOut, exClockIn] exDay0).totalWorkMinutes = 540 := by
  refine ⟨?_, by decide, by decide⟩
  have h1 : [exClockOut, exClockIn].any (isType EventType.paid_leave) = false := by decide
  have h2 : [exClockOut, exClockIn].any (isType EventType.absence) = false := by decide
  have h3 : [exClockIn, exClockOut].any (isType EventType.paid_leave) = false := by decide
  have h4 : [exClockIn, exClockOut].any (isType EventType.absence) = false := by decide
  have hs : sortDayRecords [exClockOut, exClockIn] = sortDayRecords [exClockIn, exClockOut] := by
    decide
  unfold processDay
  simp only [h1, h2, h3, h4, Bool.false_eq_true, if_false, hs]

/-- C8, amended.  The aggregation does not validate the order of its input:
    each day is sorted ascending by timestamp before the computation, so an
    out-of-order batch is silently reordered and processed normally instead of
    being rejected with an error. -/
theorem c8_amended (cfg : EmployeeConfig) (acc : MonthlySummary)
    (records : List DayRecord) (workDate : Int) :
    processDay cfg acc records workDate
      = processDay cfg acc (sortDayRecords records) workDate := by
  unfold processDay
  rw [any_sortDayRecords, any_sortDayRecords, sortDayRecords_idem]

/-- C9.  The per-day computation and the aggregation are pure functions of
    their arguments: two runs on equal inputs return equal results (there is
    no clock, randomness or external state in the batch computation; the only
    clock read in the repository is the live substitute for a missing
    clock_out, which is the explicit now argument of calculateWorkTime and is
    outside the batch path). -/
theorem c9_deterministic :
    (∀ (cfg cfg2 : EmployeeConfig) (days days2 : List (List DayRecord × Int)),
      cfg = cfg2 → days = days2 →
      calculateMonthlySummaryCore cfg days = calculateMonthlySummaryCore cfg2 days2) ∧
    (∀ (records records2 : List DayRecord) (cfg cfg2 : EmployeeConfig)
      (date date2 : Option Int),
      records = records2 → cfg = cfg2 → date = date2 →
      calculateDayWorkData records cfg date = calculateDayWorkData records2 cfg2 date2) := by
  constructor
  · intro cfg cfg2 days days2 h1 h2
    rw [h1, h2]
  · intro r r2 c c2 d d2 h1 h2 h3
    rw [h1, h2, h3]

/-- C9, witness: two aggregations of the same one-day input coincide. -/
theorem c9_witness :
    calculateMonthlySummaryCore defaultConfig [([exClockIn, exClockOut], exDay0)]
      = calculateMonthlySummaryCore defaultConfig [([exClockIn, exClockOut], exDay0)] :=
  c9_deterministic.1 defaultConfig defaultConfig
    [([exClockIn, exClockOut], exDay0)] [([exClockIn, exClockOut], exDay0)] rfl rfl

/-- The JS Date constructor with a human month m (1..12) given as index m - 1
    builds the expected civil instant; the day argument may be out of range
    and rolls over linearly. -/
theorem mkDateMs_in_range (y m d ms : Int) (hy : 100 ≤ y) (h1 : 1 ≤ m) (h2 : m ≤ 12) :
    mkDateMs y (m - 1) d ms = daysFromCivil y m d * msPerDay + ms := by
  unfold mkDateMs civilToMs
  rw [if_neg (by omega)]
  have hf : (m - 1).fdiv 12 = 0 := by
    interval_cases m <;> decide
  have hm : (m - 1) % 12 = m - 1 := by omega
  have hmm : m - 1 + 1 = m := by ring
  rw [hf, hm, hmm, add_zero]

/-- setHours on an instant that is an exact day multiple. -/
theorem setHoursFull_mul (n h mi s ms : Int) :
    setHoursFull (n * msPerDay) h mi s ms
      = n * msPerDay + h * msPerHour + mi * msPerMinute + s * 1000 + ms := by
  unfold setHoursFull
  rw [Int.mul_fdiv_cancel _ (by norm_num [msPerDay])]

/-- Stepping the 0-based month index m - 1 back by one and rebuilding the
    instant lands on month m - 1 of the same year, or December of the previous
    year when m = 1. -/
theorem civilToMs_prev (y m d : Int) (h1 : 1 ≤ m) (h2 : m ≤ 12) :
    civilToMs y (m - 1 - 1) d 0
      = daysFromCivil (if m = 1 then y - 1 else y) (if m = 1 then 12 else m - 1) d * msPerDay := by
  unfold civilToMs
  by_cases hm : m = 1
  · rw [hm, if_pos rfl, if_pos rfl]
    have e1 : (1 - 1 - 1 : Int) = -1 := by norm_num
    rw [e1, show ((-1 : Int).fdiv 12) = -1 from by decide, show ((-1 : Int) % 12) = 11 from by decide]
    have e2 : y + -1 = y - 1 := by ring
    have e3 : (11 + 1 : Int) = 12 := by norm_num
    rw [e2, e3, add_zero]
  · rw [if_neg hm, if_neg hm]
    have h1' : 2 ≤ m := by omega
    have hfd : (m - 1 - 1).fdiv 12 = 0 := by
      interval_cases m <;> decide
    have hmd : (m - 1 - 1) % 12 = m - 2 := by omega
    have e4 : m - 2 + 1 = m - 1 := by ring
    rw [hfd, hmd, e4, add_zero, add_zero]

/-- The closing-day window end for an in-range month: 23:59:59.999 on day
    closingDay of the given month, with linear rollover of the day count. -/
theorem calculatePeriod_end (y m cd : Int) (hy : 100 ≤ y) (h1 : 1 ≤ m) (h2 : m ≤ 12) :
    (calculatePeriod y m cd).2 = daysFromCivil y m cd * msPerDay + 86399999 := by
  simp only [calculatePeriod]
  rw [mkDateMs_in_range y m cd 0 hy h1 h2, add_zero, setHoursFull_mul]
  simp only [msPerDay, msPerHour, msPerMinute]
  omega

/-- The closing-day window start for an in-range month, under the hypothesis
    that day closingDay + 1 exists in the given month (expressed by the
    calendar roundtrip): midnight of day closingDay + 1 of the previous
    month. -/
theorem calculatePeriod_start (y m cd : Int) (hy : 100 ≤ y) (h1 : 1 ≤ m) (h2 : m ≤ 12)
    (hrt : civilFromDays (daysFromCivil y m (cd + 1)) = (y, m, cd + 1)) :
    (calculatePeriod y m cd).1
      = daysFromCivil (if m = 1 then y - 1 else y) (if m = 1 then 12 else m - 1) (cd + 1)
          * msPerDay := by
  simp only [calculatePeriod, getMonth0, setMonthJS]
  rw [mkDateMs_in_range y m (cd + 1) 0 hy h1 h2, add_zero,
    Int.mul_fdiv_cancel _ (by norm_num [msPerDay]), hrt, Int.mul_emod_left]
  show setHoursFull (civilToMs y (m - 1 - 1) (cd + 1) 0) 0 0 0 0 = _
  rw [civilToMs_prev y m (cd + 1) h1 h2, setHoursFull_mul]
  ring

/-- C6, counterexample.  For (year 2025, month 2, closingDay 29) the claim
    predicts a window start of 2025-01-30 00:00 (day 30 of the previous
    month), but the code first builds day 30 IN February, which rolls to
    March 2, and only then steps the month back, landing on 2025-02-02. -/
theorem c6_counterexample :
    (calculatePeriod 2025 2 29).1 = daysFromCivil 2025 2 2 * msPerDay ∧
    (calculatePeriod 2025 2 29).1 ≠ daysFromCivil 2025 1 30 * msPerDay := by
  decide

/-- C6, amended.  For years at least 100 and months 1..12 the window end is
    always 23:59:59.999 on day closingDay of the given month (day overflow
    rolling over naturally); the window start is 00:00 on day closingDay + 1
    of the previous month (rolling over naturally) PROVIDED day closingDay + 1
    does not overflow the given month, the condition stated as the calendar
    roundtrip on that day; in particular (2025, 1, 25) resolves to
    2024-12-26 00:00 .. 2025-01-25 23:59:59.999, and (2025, 3, 30) resolves to
    the naturally rolled-over start of day 31 of February 2025 (March 3). -/
theorem c6_amended :
    (∀ y m cd : Int, 100 ≤ y → 1 ≤ m → m ≤ 12 →
      (calculatePeriod y m cd).2 = daysFromCivil y m cd * msPerDay + 86399999) ∧
    (∀ y m cd : Int, 100 ≤ y → 1 ≤ m → m ≤ 12 →
      civilFromDays (daysFromCivil y m (cd + 1)) = (y, m, cd + 1) →
      (calculatePeriod y m cd).1
        = daysFromCivil (if m = 1 then y - 1 else y) (if m = 1 then 12 else m - 1) (cd + 1)
            * msPerDay) ∧
    calculatePeriod 2025 1 25
      = (daysFromCivil 2024 12 26 * msPerDay, daysFromCivil 2025 1 25 * msPerDay + 86399999) ∧
    calculatePeriod 2025 3 30
      = (daysFromCivil 2025 2 31 * msPerDay, daysFromCivil 2025 3 30 * msPerDay + 86399999) := by
  refine ⟨?_, ?_, by decide, by decide⟩
  · intro y m cd hy h1 h2
    exact calculatePeriod_end y m cd hy h1 h2
  · intro y m cd hy h1 h2 hrt
    exact calculatePeriod_start y m cd hy h1 h2 hrt

/-- C6, witness: the general start statement applied at (2026, 7, 25). -/
theorem c6_witness :
    (calculatePeriod 2026 7 25).1
      = daysFromCivil (if (7 : Int) = 1 then 2026 - 1 else 2026)
          (if (7 : Int) = 1 then 12 else 7 - 1) (25 + 1) * msPerDay :=
  c6_amended.2.1 2026 7 25 (by norm_num) (by norm_num) (by norm_num) (by decide)

end Attendance
